import Mathlib

/-!
Verification of the cross-service exercise-reference resolution layer of the
AppGym-Microservicios repository.

The embedding models the two implementations found in the source:

* the batch implementation (`fetchExercisesBatch`, `verifyExercises`,
  `getExercises` in the routine service's batch variant), which deduplicates
  the requested exercise ids, issues one upstream batch call per attempt with
  retry-on-429 and exponential backoff, and reconciles the upstream response;
* the per-identifier fan-out implementation (`verifyExercises` via
  `Promise.all` of `verifyExercise`, and the sequential `getExercises` loop
  over `getExerciseWithRetry`).

Upstream behaviour is modelled as a trace: a function from the attempt number
to the transport outcome of that attempt.  Identifiers are naturals, entities
are records with an id and an opaque data field.
-/

/-- An entity returned by the catalog service: its identifier plus an opaque
payload standing for the display data (name, description, media, aliases). -/
structure Entity where
  id : Nat
  payload : Nat
deriving DecidableEq, Repr

/-- Outcome of one upstream call, as classified by the code's catch block:
a 200 body (entities plus the upstream-reported missing ids), a 429 whose
retry-after header parsed to a finite number or not, or any other failure
(network error or a non-429 status). -/
inductive TransportResult where
  | success (exercises : List Entity) (missingExerciseIds : List Nat)
  | rateLimited (retryAfter : Option Int)
  | fatal (status : Option Nat)
deriving DecidableEq, Repr

/-- The failure a resolution call can surface: the re-thrown 429 error when
retries ran out (it still carries status 429, hence is distinguishable from
any other failure), a non-429 error thrown verbatim, or the code's post-loop
error value, which the control flow never reaches. -/
inductive FetchError where
  | rateLimited (retryAfter : Option Int)
  | fatal (status : Option Nat)
  | exhaustedMessage
deriving DecidableEq, Repr

/-- The successful payload of `fetchExercisesBatch`: the id-keyed map built
from the returned entities and the upstream-reported missing-ids list. -/
structure FetchOk where
  exerciseMap : List (Nat × Entity)
  missingExerciseIds : List Nat
deriving DecidableEq, Repr

/-- Observable behaviour of one `fetchExercisesBatch` call: the sequence of
id batches sent over the wire (one entry per upstream call), the backoff
waits performed in milliseconds, and the returned or thrown value. -/
structure FetchResult where
  requests : List (List Nat)
  delays : List Int
  result : Except FetchError FetchOk
deriving Repr

/-- First-seen-order deduplication, the semantics of
`Array.from(new Set(exerciseIds))`. -/
def dedupFirst : List Nat → List Nat
  | [] => []
  | x :: rest => x :: dedupFirst (rest.filter (fun y => y ≠ x))
termination_by xs => xs.length
decreasing_by
  simp only [List.length_cons]
  exact Nat.lt_succ_of_le (List.length_filter_le _ _)

/-- The association list `exercises.map(exercise => [exercise.id, exercise])`
from which the JS `Map` is built. -/
def buildExerciseMap (exercises : List Entity) : List (Nat × Entity) :=
  exercises.map (fun e => (e.id, e))

/-- `Map.get` semantics for a map built from an association list: on duplicate
keys the later pair wins, as in the `Map` constructor. -/
def mapGet (m : List (Nat × Entity)) (k : Nat) : Option Entity :=
  match m with
  | [] => none
  | (k₀, v) :: rest =>
    match mapGet rest k with
    | some v₀ => some v₀
    | none => if k₀ = k then some v else none

/-- `Map.has` semantics: whether `k` is a key of the map. -/
def mapHasKey (m : List (Nat × Entity)) (k : Nat) : Bool :=
  (mapGet m k).isSome

/-- The backoff computation of the source's catch block:
`Number.isFinite(retryAfter) ? retryAfter * 1000 : Math.pow(2, attempt) * 200`.
`none` models a retry-after header that is absent or does not parse to a
finite number. -/
def backoffDelay (attempt : Nat) (retryAfter : Option Int) : Int :=
  match retryAfter with
  | some r => r * 1000
  | none => Int.ofNat (2 ^ attempt * 200)

/-- The backoff policy in the specification's words: a server hint is used
verbatim (seconds converted to milliseconds) only when it is a valid
non-negative duration; otherwise the delay is `baseDelay * 2^attempt` with
`baseDelay = 200` milliseconds. -/
def specNextDelay (attempt : Nat) (retryAfter : Option Int) : Int :=
  match retryAfter with
  | some r => if 0 ≤ r then r * 1000 else Int.ofNat (2 ^ attempt * 200)
  | none => Int.ofNat (2 ^ attempt * 200)

/-- The retry loop of `fetchExercisesBatch`, entered at a given attempt
number with the calls and waits accumulated so far.  The `while` condition
`attempt <= maxRetries` is encoded structurally: `remaining` counts the loop
entries still allowed and equals `maxRetries + 1 - attempt` at every call, so
`remaining = 0` is exactly the loop condition failing, which in the source
reaches the post-loop `throw`.  A success returns the reconciled pair, a 429
with `attempt < maxRetries` records a backoff wait and retries, and any other
caught error is re-thrown. -/
def fetchFrom (trace : Nat → TransportResult) (uniqueIds : List Nat)
    (maxRetries attempt remaining : Nat) (reqs : List (List Nat))
    (delays : List Int) : FetchResult :=
  match remaining with
  | 0 => { requests := reqs, delays := delays, result := .error .exhaustedMessage }
  | r + 1 =>
    match trace attempt with
    | .success exercises missing =>
      { requests := reqs ++ [uniqueIds], delays := delays,
        result := .ok { exerciseMap := buildExerciseMap exercises,
                        missingExerciseIds := missing } }
    | .rateLimited hint =>
      if attempt < maxRetries then
        fetchFrom trace uniqueIds maxRetries (attempt + 1) r
          (reqs ++ [uniqueIds]) (delays ++ [backoffDelay attempt hint])
      else
        { requests := reqs ++ [uniqueIds], delays := delays,
          result := .error (.rateLimited hint) }
    | .fatal status =>
      { requests := reqs ++ [uniqueIds], delays := delays,
        result := .error (.fatal status) }

/-- `fetchExercisesBatch(exerciseIds, maxRetries)`: an empty input
short-circuits to an empty result with no upstream call; otherwise the ids
are deduplicated once and the retry loop runs from attempt 0 with
`maxRetries + 1` permitted loop entries. -/
def fetchExercisesBatch (trace : Nat → TransportResult)
    (exerciseIds : List Nat) (maxRetries : Nat) : FetchResult :=
  if exerciseIds.isEmpty then
    { requests := [], delays := [],
      result := .ok { exerciseMap := [], missingExerciseIds := [] } }
  else
    fetchFrom trace (dedupFirst exerciseIds) maxRetries 0 (maxRetries + 1) [] []

/-- Result shape of `verifyExercises`. -/
structure VerifyOk where
  allValid : Bool
  invalidExercises : List Nat
deriving DecidableEq, Repr

/-- Result shape of `getExercises`. -/
structure GetOk where
  exercises : List Entity
  missingExerciseIds : List Nat
deriving DecidableEq, Repr

/-- Observable behaviour of the batch `verifyExercises`: wire batches plus
the returned or thrown value.  The JS wraps a thrown error's message; the
model keeps the classified cause. -/
structure VerifyResult where
  requests : List (List Nat)
  result : Except FetchError VerifyOk
deriving Repr

/-- Observable behaviour of the batch `getExercises`. -/
structure GetResult where
  requests : List (List Nat)
  result : Except FetchError GetOk
deriving Repr

/-- The batch `verifyExercises`: delegates to `fetchExercisesBatch` (default
`maxRetries = 3`) and reports the upstream-derived missing list as the
invalid exercises, with `allValid` true iff that list is empty. -/
def verifyExercisesBatch (trace : Nat → TransportResult)
    (exerciseIds : List Nat) : VerifyResult :=
  let f := fetchExercisesBatch trace exerciseIds 3
  { requests := f.requests,
    result :=
      match f.result with
      | .ok r => .ok { allValid := r.missingExerciseIds.isEmpty,
                       invalidExercises := r.missingExerciseIds }
      | .error e => .error e }

/-- The batch `getExercises`: delegates to `fetchExercisesBatch`, then maps
the ORIGINAL (non-deduplicated) id sequence through `exerciseMap.get` and
drops the lookups that produced no entity
(`exerciseIds.map(id => exerciseMap.get(id)).filter(Boolean)`). -/
def getExercises (trace : Nat → TransportResult)
    (exerciseIds : List Nat) : GetResult :=
  let f := fetchExercisesBatch trace exerciseIds 3
  { requests := f.requests,
    result :=
      match f.result with
      | .ok r => .ok { exercises := exerciseIds.filterMap (mapGet r.exerciseMap),
                       missingExerciseIds := r.missingExerciseIds }
      | .error e => .error e }

/-- Per-identifier upstream behaviour for the fan-out implementation: whether
each identifier exists, and the entity data the catalog holds for it when it
does.  `verifyExercise`/`getExercise` map a 200 to the entity and a 404 to
absent; this model covers runs in which no call throws a non-404 error. -/
structure PerIdUpstream where
  existsId : Nat → Bool
  entityOf : Nat → Entity

/-- The fan-out `verifyExercises` of the routine service: one
`verifyExercise` call per input position (duplicates included, via
`Promise.all`), and `invalidExercises` is the input positions whose lookup
reported non-existence, in input order with multiplicity. -/
def verifyExercisesFanOut (u : PerIdUpstream) (exerciseIds : List Nat) :
    VerifyOk :=
  let invalid := exerciseIds.filter (fun id => ¬ u.existsId id)
  { allValid := invalid.isEmpty, invalidExercises := invalid }

/-- Observable behaviour of the fan-out `getExercises`: the single ids sent
over the wire, one per upstream call, plus the returned pair. -/
structure FanOutGetResult where
  requests : List Nat
  exercises : List Entity
  missingExerciseIds : List Nat
deriving DecidableEq, Repr

/-- The sequential loop of the fan-out `getExercises`: for each id in input
order it performs one lookup; a missing entity adds the id to the missing
set (a JS `Set`, so insertion-order, first-insertion deduplication) and a
found entity is appended to the output list. -/
def fanOutGetGo (u : PerIdUpstream) : List Nat → List Nat → List Entity →
    List Nat → FanOutGetResult
  | [], missingSet, acc, reqs =>
    { requests := reqs, exercises := acc, missingExerciseIds := missingSet }
  | id :: rest, missingSet, acc, reqs =>
    if u.existsId id then
      fanOutGetGo u rest missingSet (acc ++ [u.entityOf id]) (reqs ++ [id])
    else
      fanOutGetGo u rest
        (if id ∈ missingSet then missingSet else missingSet ++ [id])
        acc (reqs ++ [id])

/-- The fan-out `getExercises` of the routine service. -/
def getExercisesFanOut (u : PerIdUpstream) (exerciseIds : List Nat) :
    FanOutGetResult :=
  fanOutGetGo u exerciseIds [] [] []

/-- Modelled from the spec: the catalog service's batch endpoint
(`GET /entities/batch?ids=...`), whose handler is not part of the available
sources.  Per the external-interface contract it answers 200 with the
entities of the requested identifiers that exist and lists the rest in
`missingIdentifiers`; the model keeps request order in both lists. -/
def batchEndpoint (u : PerIdUpstream) (queriedIds : List Nat) :
    TransportResult :=
  .success ((queriedIds.filter (fun id => u.existsId id)).map u.entityOf)
    (queriedIds.filter (fun id => ¬ u.existsId id))

/-- The batch `verifyExercises` run against the spec-modelled batch endpoint
serving per-identifier facts `u`: every attempt answers the deduplicated
batch that `fetchExercisesBatch` sends. -/
def verifyExercisesBatchOn (u : PerIdUpstream) (exerciseIds : List Nat) :
    VerifyResult :=
  verifyExercisesBatch
    (fun _ => batchEndpoint u (dedupFirst exerciseIds)) exerciseIds

/-- Reconciliation in the specification's words: the missing identifiers are
the deduplicated requested identifiers, in first-seen order, that do not
appear as a key of the resolved map. -/
def specMissingIdentifiers (requested : List Nat) (m : List (Nat × Entity)) :
    List Nat :=
  (dedupFirst requested).filter (fun d => ¬ mapHasKey m d)

theorem mem_dedupFirst (a : Nat) (xs : List Nat) :
    a ∈ dedupFirst xs ↔ a ∈ xs := by
  induction xs using dedupFirst.induct with
  | case1 => simp [dedupFirst]
  | case2 x rest ih =>
    rw [dedupFirst]
    simp only [List.mem_cons, ih, List.mem_filter, decide_eq_true_eq, ne_eq]
    by_cases hax : a = x <;> simp [hax]

theorem dedupFirst_nodup (xs : List Nat) : (dedupFirst xs).Nodup := by
  induction xs using dedupFirst.induct with
  | case1 => simp [dedupFirst]
  | case2 x rest ih =>
    rw [dedupFirst]
    refine List.nodup_cons.mpr ⟨?_, ih⟩
    rw [mem_dedupFirst]
    simp [List.mem_filter]

theorem dedupFirst_of_nodup (xs : List Nat) (h : xs.Nodup) :
    dedupFirst xs = xs := by
  induction xs with
  | nil => rw [dedupFirst]
  | cons x rest ih =>
    rw [List.nodup_cons] at h
    have hf : rest.filter (fun y => y ≠ x) = rest := by
      apply List.filter_eq_self.mpr
      intro y hy
      simp only [decide_eq_true_eq, ne_eq]
      rintro rfl
      exact h.1 hy
    rw [dedupFirst, hf, ih h.2]

theorem mapGet_buildMap_isSome (exs : List Entity) (k : Nat) :
    (mapGet (buildExerciseMap exs) k).isSome =
      exs.any (fun e => e.id == k) := by
  induction exs with
  | nil => rfl
  | cons e rest ih =>
    simp only [buildExerciseMap, List.map_cons] at *
    rw [mapGet]
    cases h : mapGet (List.map (fun e => (e.id, e)) rest) k with
    | some v =>
      rw [h] at ih
      simp only [List.any_cons, ← ih]
      simp
    | none =>
      rw [h] at ih
      simp only [List.any_cons, ← ih]
      by_cases hk : e.id = k <;> simp [hk]

theorem mapHasKey_buildMap (exs : List Entity) (k : Nat) :
    mapHasKey (buildExerciseMap exs) k = true ↔ ∃ e ∈ exs, e.id = k := by
  rw [mapHasKey, mapGet_buildMap_isSome, List.any_eq_true]
  simp

/-- One success on the first attempt: the resolver makes exactly one upstream
call carrying the deduplicated ids, waits never, and returns the map built
from the returned entities together with the upstream-reported missing list
taken verbatim. -/
theorem fetchExercisesBatch_success (trace : Nat → TransportResult)
    (exerciseIds : List Nat) (exs : List Entity) (miss : List Nat)
    (hne : exerciseIds ≠ []) (h0 : trace 0 = .success exs miss) :
    fetchExercisesBatch trace exerciseIds 3 =
      { requests := [dedupFirst exerciseIds], delays := [],
        result := .ok { exerciseMap := buildExerciseMap exs,
                        missingExerciseIds := miss } } := by
  rw [fetchExercisesBatch, if_neg (by simpa [List.isEmpty_iff] using hne)]
  rw [fetchFrom, h0]
  simp

theorem filterMap_eq_filter_map {α β : Type} (f : α → Option β) (d : β)
    (l : List α) :
    l.filterMap f =
      (l.filter (fun a => (f a).isSome)).map (fun a => (f a).getD d) := by
  induction l with
  | nil => rfl
  | cons x rest ih =>
    cases hf : f x <;> simp [List.filterMap_cons, List.filter_cons, hf, ih]

/-- Every upstream call made by the retry loop carries the same id batch it
was started with: the requests are the accumulator plus some number of
repetitions of `uniqueIds`. -/
theorem fetchFrom_requests (trace : Nat → TransportResult)
    (uniqueIds : List Nat) (maxRetries : Nat) :
    ∀ (remaining attempt : Nat) (reqs : List (List Nat)) (delays : List Int),
      ∃ k, (fetchFrom trace uniqueIds maxRetries attempt remaining
              reqs delays).requests = reqs ++ List.replicate k uniqueIds := by
  intro remaining
  induction remaining with
  | zero =>
    intro attempt reqs delays
    exact ⟨0, by simp [fetchFrom]⟩
  | succ rem ih =>
    intro attempt reqs delays
    rw [fetchFrom]
    cases htr : trace attempt with
    | success exs miss => exact ⟨1, by simp⟩
    | rateLimited hint =>
      dsimp only
      by_cases h : attempt < maxRetries
      · rw [if_pos h]
        obtain ⟨k, hk⟩ := ih (attempt + 1) (reqs ++ [uniqueIds])
          (delays ++ [backoffDelay attempt hint])
        exact ⟨k + 1, by
          rw [hk, List.append_assoc]
          simp [List.replicate_succ]⟩
      · rw [if_neg h]
        exact ⟨1, by simp⟩
    | fatal s => exact ⟨1, by simp⟩

/-- C1 (corrected): the outcome partitions the deduplicated request exactly,
provided the upstream Success response is itself well-formed — every
deduplicated requested identifier has a returned entity exactly when the
upstream did not report it missing.  Without that hypothesis the claim fails,
because the code returns the upstream's missing list verbatim (see the
counterexample). -/
theorem C1_partition_amended (trace : Nat → TransportResult)
    (ids : List Nat) (exs : List Entity) (miss : List Nat) (r : FetchOk)
    (d : Nat)
    (hne : ids ≠ []) (h0 : trace 0 = .success exs miss)
    (hr : (fetchExercisesBatch trace ids 3).result = .ok r)
    (hwf : ∀ i ∈ dedupFirst ids,
      (mapHasKey (buildExerciseMap exs) i = true ↔ i ∉ miss))
    (hd : d ∈ dedupFirst ids) :
    (mapHasKey r.exerciseMap d = true ∧ d ∉ r.missingExerciseIds) ∨
    (mapHasKey r.exerciseMap d = false ∧ d ∈ r.missingExerciseIds) := by
  rw [fetchExercisesBatch_success trace ids exs miss hne h0] at hr
  simp only [Except.ok.injEq] at hr
  subst hr
  have h := hwf d hd
  by_cases hk : mapHasKey (buildExerciseMap exs) d = true
  · exact Or.inl ⟨hk, h.mp hk⟩
  · refine Or.inr ⟨by simpa using hk, ?_⟩
    by_contra hm
    exact hk (h.mpr hm)

/-- C1 witness: on request `[3, 9]` with a well-formed upstream response
holding an entity for 3 and reporting 9 missing, the deduplicated id 3 lands
on exactly the resolved side of the partition. -/
theorem C1_partition_witness :
    (mapHasKey (FetchOk.mk (buildExerciseMap [⟨3, 1⟩]) [9]).exerciseMap 3 = true ∧
      3 ∉ (FetchOk.mk (buildExerciseMap [⟨3, 1⟩]) [9]).missingExerciseIds) ∨
    (mapHasKey (FetchOk.mk (buildExerciseMap [⟨3, 1⟩]) [9]).exerciseMap 3 = false ∧
      3 ∈ (FetchOk.mk (buildExerciseMap [⟨3, 1⟩]) [9]).missingExerciseIds) :=
  C1_partition_amended (fun _ => .success [⟨3, 1⟩] [9]) [3, 9] [⟨3, 1⟩] [9]
    ⟨buildExerciseMap [⟨3, 1⟩], [9]⟩ 3 (by simp) rfl
    (by simp [fetchExercisesBatch, fetchFrom, dedupFirst, buildExerciseMap])
    (by
      intro i hi
      rw [mem_dedupFirst] at hi
      simp only [List.mem_cons, List.not_mem_nil, or_false] at hi
      rcases hi with rfl | rfl <;>
        simp [mapHasKey, mapGet, buildExerciseMap])
    (by simp [dedupFirst])

/-- C1 counterexample: on request `[1]` an upstream Success reporting neither
an entity for 1 nor 1 as missing makes the deduplicated id 1 fall on neither
side of the partition, refuting the claim for arbitrary Success responses. -/
theorem C1_partition_counterexample :
    1 ∈ dedupFirst [1] ∧
    (fetchExercisesBatch (fun _ => TransportResult.success [] []) [1] 3).result =
      Except.ok { exerciseMap := [], missingExerciseIds := [] } ∧
    mapHasKey ([] : List (Nat × Entity)) 1 = false ∧
    (1 : Nat) ∉ ([] : List Nat) := by
  refine ⟨by simp [dedupFirst], ?_, rfl, by simp⟩
  simp [fetchExercisesBatch, fetchFrom, dedupFirst, buildExerciseMap]

/-- C2 (corrected): on an upstream Success the resolver returns the
upstream-reported missing list verbatim, not a recomputation from the
resolved map's keys.  The claimed independent recomputation is refuted by the
counterexample. -/
theorem C2_missing_verbatim_amended (trace : Nat → TransportResult)
    (ids : List Nat) (exs : List Entity) (miss : List Nat)
    (hne : ids ≠ []) (h0 : trace 0 = .success exs miss) :
    (fetchExercisesBatch trace ids 3).result =
      .ok { exerciseMap := buildExerciseMap exs, missingExerciseIds := miss } := by
  rw [fetchExercisesBatch_success trace ids exs miss hne h0]

/-- C2 witness: request `[3, 9]`, upstream returns an entity for 3 and
reports `[9]` missing; the result carries that list unchanged. -/
theorem C2_missing_verbatim_witness :
    ([3, 9] : List Nat) ≠ [] ∧
    (fetchExercisesBatch (fun _ => TransportResult.success [⟨3, 1⟩] [9]) [3, 9] 3).result =
      Except.ok { exerciseMap := buildExerciseMap [⟨3, 1⟩],
                  missingExerciseIds := [9] } :=
  ⟨by simp,
    C2_missing_verbatim_amended (fun _ => .success [⟨3, 1⟩] [9]) [3, 9]
      [⟨3, 1⟩] [9] (by simp) rfl⟩

/-- C2 counterexample: request `[1]` with an upstream Success returning no
entities and an empty missing list.  The code reports nothing missing, while
the claimed map-presence recomputation would report `[1]`. -/
theorem C2_missing_verbatim_counterexample :
    (fetchExercisesBatch (fun _ => TransportResult.success [] []) [1] 3).result =
      Except.ok { exerciseMap := [], missingExerciseIds := [] } ∧
    specMissingIdentifiers [1] [] = [1] ∧
    ([] : List Nat) ≠ [1] := by
  refine ⟨?_, ?_, by simp⟩
  · simp [fetchExercisesBatch, fetchFrom, dedupFirst, buildExerciseMap]
  · simp [specMissingIdentifiers, dedupFirst, mapHasKey, mapGet]

/-- C3 (corrected): `getExercises` maps the ORIGINAL id sequence through the
resolved map, so its output is in original input order with one entry per
input occurrence whose id resolved — duplicates are re-expanded, not
collapsed to one entry as claimed. -/
theorem C3_order_amended (trace : Nat → TransportResult)
    (ids : List Nat) (exs : List Entity) (miss : List Nat)
    (hne : ids ≠ []) (h0 : trace 0 = .success exs miss) :
    (getExercises trace ids).result =
      .ok { exercises :=
              (ids.filter (fun i => mapHasKey (buildExerciseMap exs) i)).map
                (fun i => (mapGet (buildExerciseMap exs) i).getD ⟨0, 0⟩),
            missingExerciseIds := miss } := by
  simp only [getExercises, fetchExercisesBatch_success trace ids exs miss hne h0]
  rw [filterMap_eq_filter_map (mapGet (buildExerciseMap exs)) ⟨0, 0⟩ ids]
  rfl

/-- C3 witness: request `[5, 5]` with an entity for 5; the output contains
the entry for each of the two occurrences. -/
theorem C3_order_witness :
    ([5, 5] : List Nat) ≠ [] ∧
    (getExercises (fun _ => TransportResult.success [⟨5, 1⟩] []) [5, 5]).result =
      Except.ok (GetOk.mk
        ((([5, 5] : List Nat).filter
            (fun i => mapHasKey (buildExerciseMap [⟨5, 1⟩]) i)).map
          (fun i => (mapGet (buildExerciseMap [⟨5, 1⟩]) i).getD ⟨0, 0⟩))
        []) :=
  ⟨by simp,
    C3_order_amended (fun _ => .success [⟨5, 1⟩] []) [5, 5] [⟨5, 1⟩] []
      (by simp) rfl⟩

/-- C3 counterexample: on request `[5, 5]` the output holds the entity for 5
twice, while the deduplicated input has a single element — duplicates are not
collapsed to one entry. -/
theorem C3_order_counterexample :
    (getExercises (fun _ => TransportResult.success [⟨5, 1⟩] []) [5, 5]).result =
      Except.ok { exercises := [⟨5, 1⟩, ⟨5, 1⟩], missingExerciseIds := [] } ∧
    ([⟨5, 1⟩, ⟨5, 1⟩] : List Entity).length ≠ (dedupFirst [5, 5]).length := by
  constructor
  · simp [getExercises, fetchExercisesBatch, fetchFrom, dedupFirst,
      buildExerciseMap, mapGet]
  · simp [dedupFirst]

/-- C4 (confirmed): with `maxRetries = 3` and an upstream that rate-limits on
every attempt, the resolver makes exactly 4 upstream calls (attempts 0
through 3), then surfaces the final 429 as its failure — an outcome that is
never equal to a Fatal failure — and makes no further calls. -/
theorem C4_exhaustion (trace : Nat → TransportResult) (ids : List Nat)
    (hint : Nat → Option Int) (hne : ids ≠ [])
    (hT : ∀ n, trace n = TransportResult.rateLimited (hint n)) :
    (fetchExercisesBatch trace ids 3).requests.length = 4 ∧
    (fetchExercisesBatch trace ids 3).result =
      Except.error (FetchError.rateLimited (hint 3)) ∧
    ∀ s, (fetchExercisesBatch trace ids 3).result ≠
      Except.error (FetchError.fatal s) := by
  have h : fetchExercisesBatch trace ids 3 =
      { requests := [dedupFirst ids, dedupFirst ids, dedupFirst ids,
          dedupFirst ids],
        delays := [backoffDelay 0 (hint 0), backoffDelay 1 (hint 1),
          backoffDelay 2 (hint 2)],
        result := .error (.rateLimited (hint 3)) } := by
    rw [fetchExercisesBatch, if_neg (by simpa [List.isEmpty_iff] using hne)]
    simp [fetchFrom, hT]
  rw [h]
  refine ⟨rfl, rfl, ?_⟩
  intro s hs
  simp at hs

/-- C4 witness: one concrete exhaustion run on request `[1]` with no server
hint on any attempt. -/
theorem C4_exhaustion_witness :
    ([1] : List Nat) ≠ [] ∧
    (fetchExercisesBatch (fun _ => TransportResult.rateLimited none) [1] 3).requests.length = 4 ∧
    (fetchExercisesBatch (fun _ => TransportResult.rateLimited none) [1] 3).result =
      Except.error (FetchError.rateLimited none) ∧
    ∀ s, (fetchExercisesBatch (fun _ => TransportResult.rateLimited none) [1] 3).result ≠
      Except.error (FetchError.fatal s) :=
  ⟨by simp,
    C4_exhaustion (fun _ => .rateLimited none) [1] (fun _ => none)
      (by simp) (fun _ => rfl)⟩

/-- C5 (corrected): the code's backoff agrees with the specified policy
whenever the parsed Retry-After hint, if present, is non-negative; a negative
finite hint is used verbatim by the code where the spec falls back to
exponential backoff (see the counterexample). -/
theorem C5_backoff_amended (attempt : Nat) (hint : Option Int)
    (h : ∀ r, hint = some r → 0 ≤ r) :
    backoffDelay attempt hint = specNextDelay attempt hint := by
  cases hint with
  | none => rfl
  | some r =>
    rw [backoffDelay, specNextDelay, if_pos (h r rfl)]

/-- C5 witness: a 5-second hint on attempt 2 is used verbatim (5000 ms) by
both the code and the specified policy. -/
theorem C5_backoff_witness :
    (∀ r : Int, (some (5 : Int)) = some r → 0 ≤ r) ∧
    backoffDelay 2 (some 5) = specNextDelay 2 (some 5) :=
  ⟨by rintro r ⟨rfl⟩; decide,
    C5_backoff_amended 2 (some 5) (by rintro r ⟨rfl⟩; decide)⟩

/-- C5 counterexample: a Retry-After header parsing to `-5` is finite, so the
code waits `-5000` ms (that is, not at all) while the claimed policy requires
the exponential fallback of 200 ms on attempt 0. -/
theorem C5_backoff_counterexample :
    backoffDelay 0 (some (-5)) = -5000 ∧
    specNextDelay 0 (some (-5)) = 200 ∧
    (-5000 : Int) ≠ 200 := by
  refine ⟨rfl, ?_, by decide⟩
  rw [specNextDelay, if_neg (by decide)]
  rfl

/-- C8 (confirmed): a non-429 failure on the first attempt propagates
immediately — exactly one upstream call, no backoff wait, the error thrown
verbatim. -/
theorem C8_fatal_short_circuit (trace : Nat → TransportResult)
    (ids : List Nat) (s : Option Nat)
    (hne : ids ≠ []) (h0 : trace 0 = .fatal s) :
    fetchExercisesBatch trace ids 3 =
      { requests := [dedupFirst ids], delays := [],
        result := .error (.fatal s) } := by
  rw [fetchExercisesBatch, if_neg (by simpa [List.isEmpty_iff] using hne)]
  rw [fetchFrom, h0]
  simp

/-- C8 witness: a 500-status failure on attempt 0 for request `[1]` gives one
call and an immediate fatal error. -/
theorem C8_fatal_short_circuit_witness :
    ([1] : List Nat) ≠ [] ∧
    fetchExercisesBatch (fun _ => TransportResult.fatal (some 500)) [1] 3 =
      { requests := [dedupFirst [1]], delays := [],
        result := Except.error (FetchError.fatal (some 500)) } :=
  ⟨by simp,
    C8_fatal_short_circuit (fun _ => .fatal (some 500)) [1] (some 500)
      (by simp) rfl⟩

/-- C9 (confirmed): an empty input short-circuits every operation — batch
fetch, batch verify, batch get, fan-out verify and fan-out get — to an empty
result with zero upstream calls, whatever the upstream would have done. -/
theorem C9_empty_short_circuit :
    ∀ (trace : Nat → TransportResult) (u : PerIdUpstream),
      fetchExercisesBatch trace [] 3 =
        { requests := [], delays := [],
          result := .ok { exerciseMap := [], missingExerciseIds := [] } } ∧
      (verifyExercisesBatch trace []).requests = [] ∧
      (verifyExercisesBatch trace []).result =
        Except.ok { allValid := true, invalidExercises := [] } ∧
      (getExercises trace []).requests = [] ∧
      (getExercises trace []).result =
        Except.ok { exercises := [], missingExerciseIds := [] } ∧
      verifyExercisesFanOut u [] =
        { allValid := true, invalidExercises := [] } ∧
      getExercisesFanOut u [] =
        { requests := [], exercises := [], missingExerciseIds := [] } := by
  intro trace u
  exact ⟨rfl, rfl, rfl, rfl, rfl, rfl, rfl⟩

/-- C6 (corrected): on duplicate-free inputs the batch `verifyExercises`,
run against a catalog reporting the same per-identifier existence facts,
returns exactly the fan-out `verifyExercises` result.  On inputs with
duplicates the two differ in multiplicity (see the counterexample), because
the fan-out keeps one invalid entry per input occurrence while the batch
path deduplicates before the wire. -/
theorem C6_equivalence_amended (u : PerIdUpstream) (ids : List Nat)
    (h : ids.Nodup) :
    (verifyExercisesBatchOn u ids).result =
      Except.ok (verifyExercisesFanOut u ids) := by
  cases ids with
  | nil => rfl
  | cons x rest =>
    have hd : dedupFirst (x :: rest) = x :: rest := dedupFirst_of_nodup _ h
    have hs := fetchExercisesBatch_success
      (fun _ => batchEndpoint u (x :: rest)) (x :: rest)
      (((x :: rest).filter (fun id => u.existsId id)).map u.entityOf)
      ((x :: rest).filter (fun id => ¬ u.existsId id))
      (List.cons_ne_nil x rest) rfl
    rw [verifyExercisesBatchOn, verifyExercisesBatch]
    simp only [hd, hs, verifyExercisesFanOut]

/-- C6 witness: on the duplicate-free request `[1, 2]` against a catalog in
which only 1 exists, both implementations return the same verdict. -/
theorem C6_equivalence_witness :
    ([1, 2] : List Nat).Nodup ∧
    (verifyExercisesBatchOn ⟨fun i => i == 1, fun i => ⟨i, 0⟩⟩ [1, 2]).result =
      Except.ok (verifyExercisesFanOut ⟨fun i => i == 1, fun i => ⟨i, 0⟩⟩ [1, 2]) :=
  ⟨by decide,
    C6_equivalence_amended ⟨fun i => i == 1, fun i => ⟨i, 0⟩⟩ [1, 2] (by decide)⟩

/-- C6 counterexample: on request `[9, 9]` against a catalog in which 9 does
not exist, the fan-out reports `[9, 9]` invalid while the batch path reports
`[9]` — same elements, different multiplicity, refuting the claimed equality
for arbitrary inputs. -/
theorem C6_equivalence_counterexample :
    (verifyExercisesBatchOn ⟨fun _ => false, fun i => ⟨i, 0⟩⟩ [9, 9]).result =
      Except.ok { allValid := false, invalidExercises := [9] } ∧
    verifyExercisesFanOut ⟨fun _ => false, fun i => ⟨i, 0⟩⟩ [9, 9] =
      { allValid := false, invalidExercises := [9, 9] } ∧
    ([9] : List Nat) ≠ [9, 9] := by
  refine ⟨?_, by simp [verifyExercisesFanOut], by simp⟩
  simp [verifyExercisesBatchOn, verifyExercisesBatch, fetchExercisesBatch,
    fetchFrom, dedupFirst, batchEndpoint, buildExerciseMap]

/-- C7 (corrected): the batch resolver sends the same duplicate-free batch —
the first-seen deduplication of the caller input — on every upstream call it
makes; but the fan-out `getExercises` sends one call per input occurrence, so
a duplicated input id does go over the wire twice within one resolution call
(see the counterexample). -/
theorem C7_dedup_amended (trace : Nat → TransportResult) (ids : List Nat)
    (maxRetries : Nat) (q : List Nat)
    (hq : q ∈ (fetchExercisesBatch trace ids maxRetries).requests) :
    q = dedupFirst ids ∧ q.Nodup := by
  rw [fetchExercisesBatch] at hq
  by_cases he : ids.isEmpty
  · rw [if_pos he] at hq
    simp at hq
  · rw [if_neg he] at hq
    obtain ⟨k, hk⟩ := fetchFrom_requests trace (dedupFirst ids) maxRetries
      (maxRetries + 1) 0 [] []
    rw [hk, List.nil_append] at hq
    have hqe := List.eq_of_mem_replicate hq
    exact ⟨hqe, hqe ▸ dedupFirst_nodup ids⟩

/-- C7 witness: on request `[5, 5, 7]` the single upstream batch sent is
`[5, 7]`, the first-seen deduplication, with no duplicates. -/
theorem C7_dedup_witness :
    ([5, 7] : List Nat) ∈
      (fetchExercisesBatch (fun _ => TransportResult.success [] []) [5, 5, 7] 3).requests ∧
    (([5, 7] : List Nat) = dedupFirst [5, 5, 7] ∧ ([5, 7] : List Nat).Nodup) :=
  ⟨by simp [fetchExercisesBatch, fetchFrom, dedupFirst],
    C7_dedup_amended (fun _ => .success [] []) [5, 5, 7] 3 [5, 7]
      (by simp [fetchExercisesBatch, fetchFrom, dedupFirst])⟩

/-- C7 counterexample: the fan-out `getExercises` on request `[5, 5]` sends
the id 5 over the wire twice within one resolution call. -/
theorem C7_dedup_counterexample :
    (getExercisesFanOut ⟨fun _ => true, fun i => ⟨i, 0⟩⟩ [5, 5]).requests = [5, 5] ∧
    ¬ ([5, 5] : List Nat).Nodup :=
  ⟨rfl, by decide⟩

/-- C10 (confirmed): every entity in the batch `getExercises` output is the
resolved-map entry of some requested identifier; entities returned for
unrequested identifiers never appear, and by construction no absent lookup
contributes an entry. -/
theorem C10_output_entities (trace : Nat → TransportResult) (ids : List Nat)
    (exs : List Entity) (miss : List Nat) (r : GetOk) (e : Entity)
    (h0 : trace 0 = .success exs miss)
    (hr : (getExercises trace ids).result = Except.ok r)
    (he : e ∈ r.exercises) :
    ∃ i, i ∈ ids ∧ mapGet (buildExerciseMap exs) i = some e := by
  by_cases hne : ids = []
  · subst hne
    have h9 : (getExercises trace []).result =
        Except.ok { exercises := [], missingExerciseIds := [] } := rfl
    rw [h9] at hr
    rw [← Except.ok.inj hr] at he
    simp at he
  · have hres : (getExercises trace ids).result =
        Except.ok { exercises := ids.filterMap (mapGet (buildExerciseMap exs)),
                    missingExerciseIds := miss } := by
      simp only [getExercises, fetchExercisesBatch_success trace ids exs miss hne h0]
    rw [hres] at hr
    rw [← Except.ok.inj hr] at he
    simp only [] at he
    rcases List.mem_filterMap.mp he with ⟨i, hi, hmi⟩
    exact ⟨i, hi, hmi⟩

/-- C10 witness: on request `[3]` with the upstream returning the entity for
3, the single output entry is the map entry of the requested id 3. -/
theorem C10_output_entities_witness :
    ∃ i, i ∈ ([3] : List Nat) ∧
      mapGet (buildExerciseMap [⟨3, 1⟩]) i = some ⟨3, 1⟩ :=
  C10_output_entities (fun _ => .success [⟨3, 1⟩] []) [3] [⟨3, 1⟩] []
    { exercises := [⟨3, 1⟩], missingExerciseIds := [] } ⟨3, 1⟩ rfl
    (by simp [getExercises, fetchExercisesBatch, fetchFrom, dedupFirst,
      buildExerciseMap, mapGet])
    (by simp)
